import Mathlib

set_option maxHeartbeats 1000000
set_option maxRecDepth 4000

/- Shallow embedding of src/app.py (daily activity tracker): the record
   reconciliation and persistence layer.  Pure fragments of the Python code
   become Lean functions; the CSV file, the read cache, and the Streamlit
   session state become explicit state records threaded through the
   operations.  Integers stand for Python ints and integral pandas floats
   (the app only ever stores integral numerics, and all comparisons in the
   code are numeric). -/

/-- A Python value as it flows through the app: an integer, a string, or
    NaN (the pandas missing-value marker read back from empty CSV cells). -/
inductive Value where
  | intV (n : Int)
  | strV (s : String)
  | nan
deriving DecidableEq

/-- Python truthiness of a value, as used by the code in
    `if not original_value or ...` (line 463).  Note `bool(nan)` is true. -/
def pyTruthy : Value → Bool
  | .intV n => n != 0
  | .strV s => s != ""
  | .nan => true

/-- `pd.isna` on a scalar value. -/
def pyIsNA : Value → Bool
  | .nan => true
  | _ => false

/-- The Python equality test `==` between values of these shapes: numbers
    compare numerically, strings by content, NaN equals nothing, and an
    int never equals a string. -/
def pyEq : Value → Value → Bool
  | .intV a, .intV b => a == b
  | .strV a, .strV b => a == b
  | _, _ => false

/-- Python `int(v)` as applied on the code path of line 475 (only reached
    there on truthy, non-NaN values, which for this app are numerics). -/
def pyToInt : Value → Int
  | .intV n => n
  | .strV s => (s.toInt?).getD 0
  | .nan => 0

/-- Lookup in a string-keyed association list (Python dict access). -/
def getA {α : Type} : List (String × α) → String → Option α
  | [], _ => none
  | (k, v) :: r, c => if k = c then some v else getA r c

/-- Update/insert in a string-keyed association list (Python dict assignment).
    An existing key is overwritten in place; a new key is appended. -/
def setA {α : Type} : List (String × α) → String → α → List (String × α)
  | [], c, v => [(c, v)]
  | (k, w) :: r, c, v => if k = c then (c, v) :: r else (k, w) :: setA r c v

/-- Field kinds from the `categories` dict (lines 275-286). -/
inductive FieldType where
  | integer
  | enum
  | slider
deriving DecidableEq

/-- Properties of one tracked field, from the `categories` dict. -/
structure FieldProps where
  ftype : FieldType
  values : List String := []
  minVal : Int := 0
  maxVal : Int := 0
deriving DecidableEq

def durProps : FieldProps := { ftype := .integer }

def triProps : FieldProps := { ftype := .enum, values := ["bad", "neutral", "good"] }

def vibeProps : FieldProps := { ftype := .slider, minVal := 1, maxVal := 10 }

/-- The `categories` dict of lines 275-286, in insertion order. -/
def categories : List (String × FieldProps) :=
  [("Meditation", durProps), ("Exercise", durProps), ("Frankie", durProps),
   ("Harrison", durProps), ("Madi", durProps), ("THC", triProps),
   ("Diet", triProps), ("Screen", durProps), ("Productive", durProps),
   ("Vibe", vibeProps)]

/-- The schema columns (lines 113-119): Date followed by the category names. -/
def schemaCols : List String := "Date" :: categories.map (fun cp => cp.1)

/-- A row / record, as a Python dict from column name to value. -/
abbrev Dict := List (String × Value)

/-- `d.get(c)` with the unset-marker default; the code treats a missing key
    (Python None) and an empty string identically on every path it takes
    (both are falsy and non-NaN), so the embedding uses the empty string. -/
def recGet (r : Dict) (c : String) : Value := (getA r c).getD (.strV "")

def recSet (r : Dict) (c : String) (v : Value) : Dict := setA r c v

/-- The in-memory DataFrame: column list plus one dict per row. -/
structure Table where
  cols : List String
  rows : List Dict
deriving DecidableEq

/-- `data_exists_for_date` (lines 212-213): membership of the date string
    in the Date column. -/
def data_exists_for_date (df : Table) (date : String) : Bool :=
  df.rows.any (fun r => pyEq (recGet r "Date") (.strV date))

/-- `get_data_for_date` (lines 216-220): the first row whose Date matches,
    otherwise a dict mapping every column to the empty string. -/
def get_data_for_date (df : Table) (date : String) : Dict :=
  match df.rows.find? (fun r => pyEq (recGet r "Date") (.strV date)) with
  | some r => r
  | none => df.cols.map (fun c => (c, Value.strV ""))

/-- `df.loc[df[Date] == date, c] = v` (line 490): set column c on every
    row whose Date matches. -/
def updateField (df : Table) (date c : String) (v : Value) : Table :=
  { df with rows := df.rows.map (fun r =>
      if pyEq (recGet r "Date") (.strV date) then recSet r c v else r) }

/-- Serialization of one cell by `df.to_csv`: integers in decimal, strings
    verbatim, NaN as the empty cell. -/
def renderValue : Value → String
  | .intV n => toString n
  | .strV s => s
  | .nan => ""

def rowCells (cols : List String) (r : Dict) : List String :=
  cols.map (fun c => renderValue (recGet r c))

/-- The CSV content `to_csv` produces: a header line of column names then
    one line of cells per row.  The file is modelled at cell granularity
    (a line is its list of cells); the app's cell values never contain
    commas, so joining with commas is injective and elided. -/
def renderCSV (df : Table) : List (List String) :=
  df.cols :: df.rows.map (rowCells df.cols)

/-- Canonical YYYY-MM-DD date strings, the only shape this embedding's
    date normalization (`pd.to_datetime(...).dt.strftime`, line 108)
    accepts; on these the normalization is the identity.  (pandas also
    normalizes some looser spellings; the app itself only ever writes
    strftime output, so those never occur in app-written files.) -/
def validDate (s : String) : Bool :=
  match s.toList with
  | [y1, y2, y3, y4, c1, m1, m2, c2, d1, d2] =>
    y1.isDigit && y2.isDigit && y3.isDigit && y4.isDigit &&
    c1 == Char.ofNat 45 && m1.isDigit && m2.isDigit &&
    c2 == Char.ofNat 45 && d1.isDigit && d2.isDigit &&
    (1 ≤ (m1.toNat - 48) * 10 + m2.toNat - 48) &&
    ((m1.toNat - 48) * 10 + m2.toNat - 48 ≤ 12) &&
    (1 ≤ (d1.toNat - 48) * 10 + d2.toNat - 48) &&
    ((d1.toNat - 48) * 10 + d2.toNat - 48 ≤ 31)
  | _ => false

/-- pandas type inference when reading one CSV cell: empty becomes NaN,
    a decimal literal becomes a number, anything else stays a string. -/
def parseValue (s : String) : Value :=
  if s = "" then .nan
  else
    match s.toInt? with
    | some n => .intV n
    | none => .strV s

/-- Reading one cell of column c: the Date column goes through the
    to_datetime normalization (failure makes the whole load raise, line
    108 inside the try of lines 103-114); other columns use type inference. -/
def parseCell (c cell : String) : Option Value :=
  if c = "Date" then
    if cell = "" then some .nan
    else if validDate cell then some (.strV cell) else none
  else some (parseValue cell)

/-- Reading one data line against the header.  A line with more cells than
    the header makes `read_csv` raise; a shorter line is padded with NaN. -/
def parseRowA : List String → List String → Option Dict
  | [], [] => some []
  | [], _ :: _ => none
  | c :: cs, [] =>
    match parseCell c "", parseRowA cs [] with
    | some v, some r => some ((c, v) :: r)
    | _, _ => none
  | c :: cs, x :: xs =>
    match parseCell c x, parseRowA cs xs with
    | some v, some r => some ((c, v) :: r)
    | _, _ => none

def parseRows (header : List String) : List (List String) → Option (List Dict)
  | [] => some []
  | line :: rest =>
    match parseRowA header line, parseRows header rest with
    | some r, some rs => some (r :: rs)
    | _, _ => none

/-- `pd.read_csv` plus the Date normalization, lines 104-108.  An empty
    file raises (EmptyDataError), as does any malformed line or
    unparseable date; all those exceptions are caught by the caller. -/
def parseCSV : List (List String) → Option Table
  | [] => none
  | header :: rest =>
    match parseRows header rest with
    | some rows => some { cols := header, rows := rows }
    | none => none

/-- The backing store and the `st.cache_data` read cache: `tracker` is the
    content of Tracker.csv (none when the file does not exist), `cache`
    is the memoized result of the last `load_data` (none when invalid). -/
structure FS where
  tracker : Option (List (List String))
  cache : Option Table
deriving DecidableEq

/-- Body of `load_data` (lines 101-121): a missing file yields the empty
    table with the schema columns; a file that fails to read or parse is
    caught by the except branch (lines 111-114), which yields the same
    empty table with the schema columns. -/
def loadTable (tracker : Option (List (List String))) : Table :=
  match tracker with
  | none => { cols := schemaCols, rows := [] }
  | some lines =>
    match parseCSV lines with
    | some df => df
    | none => { cols := schemaCols, rows := [] }

/-- `load_data` as called through the `st.cache_data` wrapper: a valid
    cache entry is returned as-is, otherwise the file is read and cached. -/
def load_data (fs : FS) : Table × FS :=
  match fs.cache with
  | some t => (t, fs)
  | none =>
    let t := loadTable fs.tracker
    (t, { fs with cache := some t })

/-- `save_data` (lines 175-209): `df.to_csv(TRACKER_FILE)` writes the new
    content directly over the target file (no temporary file, no rename).
    `fault` models an I/O failure (disk full, permission revoked mid-write)
    after k lines have been written: the exception leaves the file holding
    the partial prefix, skips the cache invalidation (`load_data.clear()`
    on line 204 is only reached on success), and returns False. -/
def save_data (fs : FS) (df : Table) (fault : Option Nat) : FS × Bool :=
  match fault with
  | none => ({ tracker := some (renderCSV df), cache := none }, true)
  | some k => ({ tracker := some ((renderCSV df).take k), cache := fs.cache }, false)

/-- Default substitution of lines 463-470: empty/NaN baseline entries
    become the field's canonical default. -/
def defaultFor (props : FieldProps) : Value :=
  match props.ftype with
  | .integer => .intV 0
  | .enum => .strV (props.values.headD "")
  | .slider => .intV props.minVal

/-- The baseline value a submitted value is compared against, lines
    463-478: default-substitute falsy-or-NaN originals, then coerce
    integer and slider originals to int (falsy or NaN again giving 0). -/
def effectiveBaseline (props : FieldProps) (ob : Value) : Value :=
  let ob1 := if !pyTruthy ob || pyIsNA ob then defaultFor props else ob
  match props.ftype with
  | .integer | .slider =>
    if pyTruthy ob1 && !pyIsNA ob1 then .intV (pyToInt ob1) else .intV 0
  | .enum => ob1

/-- Line 481: a field counts as changed iff the submitted value differs
    from the effective baseline and is itself not NaN. -/
def isChanged (props : FieldProps) (ob nv : Value) : Bool :=
  !pyEq nv (effectiveBaseline props ob) && !pyIsNA nv

/-- The `changed_fields` list built by the loop of lines 457-483, in
    category order. -/
def changedFields (original nd : Dict) : List String :=
  (categories.filter (fun cp =>
    isChanged cp.2 (recGet original cp.1) (recGet nd cp.1))).map (fun cp => cp.1)

/-- Streamlit session state: `original_values` (the per-date baseline),
    `previous_form_values`, and `submitted_fields`. -/
structure SessionState where
  originalValues : List (String × Dict)
  prevFormValues : List (String × Dict)
  submittedFields : List (String × List String)
deriving DecidableEq

/-- `mark_field_submitted` (lines 165-172). -/
def markSubmitted (sf : List (String × List String)) (date f : String) :
    List (String × List String) :=
  match getA sf date with
  | none => setA sf date [f]
  | some l => if l.contains f then sf else setA sf date (l ++ [f])

/-- The three user-visible outcomes of a submission: the success message
    of line 537, the success message of line 504 carrying the changed
    field names, and the info message of line 511. -/
inductive Outcome where
  | created
  | updated (fields : List String)
  | noChange
deriving DecidableEq

/-- The baseline the diff runs against: `original_values[date]`, lazily
    initialized from the current record on first touch (lines 268-269). -/
def baselineFor (ss : SessionState) (df : Table) (date : String) : Dict :=
  (getA ss.originalValues date).getD (get_data_for_date df date)

/-- The update loop of lines 488-490 over the changed fields. -/
def applyUpdates (df : Table) (date : String) (cs : List String) (nd : Dict) : Table :=
  cs.foldl (fun d c => updateField d date c (recGet nd c)) df

structure SubmitResult where
  fs : FS
  ss : SessionState
  df : Table
  outcome : Outcome
  saveAttempted : Bool
  saveOk : Bool
deriving DecidableEq

/-- The form submit handler (lines 419-541) for one submission of the
    per-category values nd (the dict built by the form widgets) on the
    given date, against the loaded table df.  `fault` is passed to
    `save_data`. -/
def submit (fs : FS) (ss : SessionState) (df : Table) (date : String)
    (nd : Dict) (fault : Option Nat) : SubmitResult :=
  let existing := get_data_for_date df date
  let hasData := data_exists_for_date df date
  let ov := match getA ss.originalValues date with
    | none => setA ss.originalValues date existing
    | some _ => ss.originalValues
  let pfvsf : List (String × Dict) × List (String × List String) :=
    match getA ss.prevFormValues date with
    | none =>
      (setA ss.prevFormValues date nd,
        if !hasData then
          categories.foldl (fun s cp => markSubmitted s date cp.1) ss.submittedFields
        else ss.submittedFields)
    | some prev =>
      (setA ss.prevFormValues date nd,
        categories.foldl (fun s cp =>
          if !pyEq (recGet prev cp.1) (recGet nd cp.1) then markSubmitted s date cp.1
          else s) ss.submittedFields)
  if hasData then
    let original := baselineFor ss df date
    let changed := changedFields original nd
    if changed.isEmpty then
      { fs := fs, ss := ⟨ov, pfvsf.1, pfvsf.2⟩, df := df,
        outcome := .noChange, saveAttempted := false, saveOk := false }
    else
      let df2 := applyUpdates df date changed nd
      let sres := save_data fs df2 fault
      let ov2 := setA ov date (get_data_for_date df2 date)
      { fs := sres.1, ss := ⟨ov2, pfvsf.1, pfvsf.2⟩, df := df2,
        outcome := .updated changed, saveAttempted := true, saveOk := sres.2 }
  else
    let ndRow : Dict := ("Date", Value.strV date) :: nd
    let df2 : Table := { cols := df.cols, rows := df.rows ++ [ndRow] }
    let sres := save_data fs df2 fault
    let sf2 := categories.foldl (fun s cp => markSubmitted s date cp.1) pfvsf.2
    let ov2 := setA ov date ndRow
    { fs := sres.1, ss := ⟨ov2, pfvsf.1, sf2⟩, df := df2,
      outcome := .created, saveAttempted := true, saveOk := sres.2 }

/- Spec-side definitions, written from the specification's wording, used to
   compare the code's classification against the spec's (refinement-style
   claims). -/

/-- Spec-side "unset": the spec's data model treats absent values as
    empty/NaN ("unset (empty/NaN)"). -/
def specUnset (v : Value) : Bool :=
  match v with
  | .nan => true
  | .strV s => s == ""
  | .intV _ => false

/-- Spec-side effective baseline: the remembered baseline value with
    unset/missing entries replaced by the canonical default. -/
def specEffectiveBaseline (props : FieldProps) (ob : Value) : Value :=
  if specUnset ob then defaultFor props else ob

/-- Spec-side changed classification: submitted differs from the effective
    baseline and the submitted value is not itself unset/NaN. -/
def specChanged (props : FieldProps) (ob nv : Value) : Bool :=
  !pyEq nv (specEffectiveBaseline props ob) && !specUnset nv

/- Well-formedness predicates: the shapes of values the form widgets can
   actually produce and the store can actually hold. -/

/-- A value the form widget for this field can submit: `st.number_input`
    with min_value 0 and step 1 yields a non-negative int, `st.selectbox`
    yields one of the options, `st.slider` yields an int within bounds. -/
def wfSubVal (props : FieldProps) (v : Value) : Bool :=
  match props.ftype, v with
  | .integer, .intV n => decide (0 ≤ n)
  | .enum, .strV s => props.values.contains s
  | .slider, .intV n => decide (props.minVal ≤ n) && decide (n ≤ props.maxVal)
  | _, _ => false

/-- A full form submission: exactly the category keys in order, each with
    a widget-producible value. -/
def wfSubmission (nd : Dict) : Bool :=
  nd.map (fun p => p.1) == categories.map (fun cp => cp.1) &&
  categories.all (fun cp => wfSubVal cp.2 (recGet nd cp.1))

/-- A stored or remembered baseline value: unset (NaN or empty) or a value
    the widget could have produced. -/
def wfBaseVal (props : FieldProps) (v : Value) : Bool :=
  v == .nan || v == .strV "" || wfSubVal props v

/-- Sanity conditions on the field definitions that all ten categories
    satisfy: enum options are nonempty strings, slider bounds are positive. -/
def wfProps (props : FieldProps) : Bool :=
  match props.ftype with
  | .integer => true
  | .enum => !props.values.contains "" && !props.values.isEmpty
  | .slider => decide (0 < props.minVal)

/-- The row's Date cell is a canonical date string. -/
def dateCellValid (r : Dict) : Bool :=
  match getA r "Date" with
  | some (.strV s) => validDate s
  | _ => false

/-- A table as this app writes it: schema columns, every row keyed exactly
    by the schema columns with a canonical date and well-formed field
    values. -/
def wfRow (r : Dict) : Bool :=
  r.map (fun p => p.1) == schemaCols && dateCellValid r &&
  categories.all (fun cp => wfBaseVal cp.2 (recGet r cp.1))

def wfTable (df : Table) : Bool :=
  df.cols == schemaCols && df.rows.all wfRow

/- Association-list lemmas. -/

theorem getA_setA_self {α : Type} (l : List (String × α)) (k : String) (v : α) :
    getA (setA l k v) k = some v := by
  induction l with
  | nil => simp [getA, setA]
  | cons p r ih =>
    obtain ⟨pk, pv⟩ := p
    by_cases h : pk = k
    · simp [setA, h, getA]
    · simp [setA, h, getA, ih]

theorem getA_setA_ne {α : Type} (l : List (String × α)) (k c : String) (v : α)
    (h : c ≠ k) : getA (setA l k v) c = getA l c := by
  induction l with
  | nil => simp [getA, setA, Ne.symm h]
  | cons p r ih =>
    obtain ⟨pk, pv⟩ := p
    by_cases hk : pk = k
    · subst hk
      simp [setA, getA, Ne.symm h]
    · simp [setA, hk, getA, ih]

theorem recGet_recSet_self (r : Dict) (c : String) (v : Value) :
    recGet (recSet r c v) c = v := by
  simp [recGet, recSet, getA_setA_self]

theorem recGet_recSet_ne (r : Dict) (c k : String) (v : Value) (h : c ≠ k) :
    recGet (recSet r k v) c = recGet r c := by
  simp [recGet, recSet, getA_setA_ne _ _ _ _ h]

/- Well-formedness facts about values. -/

theorem wfSubVal_wfBaseVal (props : FieldProps) (v : Value)
    (h : wfSubVal props v = true) : wfBaseVal props v = true := by
  simp [wfBaseVal, h]

theorem wfSubVal_not_na (props : FieldProps) (v : Value)
    (h : wfSubVal props v = true) : pyIsNA v = false := by
  cases v with
  | intV n => rfl
  | strV s => rfl
  | nan => cases hft : props.ftype <;> simp [wfSubVal, hft] at h

theorem wfSubVal_not_unset (props : FieldProps) (hp : wfProps props = true) (v : Value)
    (h : wfSubVal props v = true) : specUnset v = false := by
  cases v with
  | intV n => rfl
  | nan => cases hft : props.ftype <;> simp [wfSubVal, hft] at h
  | strV s =>
    cases hft : props.ftype
    · simp [wfSubVal, hft] at h
    · by_cases hs : s = ""
      · subst hs
        simp [wfSubVal, hft] at h
        simp [wfProps, hft] at hp
        exact absurd h hp.1
      · simp [specUnset, hs]
    · simp [wfSubVal, hft] at h

/-- Under the shapes that actually occur (baselines are unset or
    widget-producible, enum options are nonempty, slider bounds positive),
    the code's effective baseline of lines 463-478 coincides with the
    spec's default-substitution. -/
theorem effBaseline_eq_spec (props : FieldProps) (hp : wfProps props = true) (ob : Value)
    (hob : wfBaseVal props ob = true) :
    effectiveBaseline props ob = specEffectiveBaseline props ob := by
  cases hft : props.ftype with
  | integer =>
    rcases ob with n | s | _
    · by_cases h0 : n = 0
      · subst h0
        simp [effectiveBaseline, specEffectiveBaseline, specUnset, pyTruthy, pyIsNA,
          defaultFor, hft]
      · simp [effectiveBaseline, specEffectiveBaseline, specUnset, pyTruthy, pyIsNA,
          defaultFor, pyToInt, hft, h0]
    · have hs : s = "" := by simp [wfBaseVal, wfSubVal, hft] at hob; exact hob
      subst hs
      simp [effectiveBaseline, specEffectiveBaseline, specUnset, pyTruthy, pyIsNA,
        defaultFor, hft]
    · simp [effectiveBaseline, specEffectiveBaseline, specUnset, pyTruthy, pyIsNA,
        defaultFor, hft]
  | enum =>
    rcases ob with n | s | _
    · simp [wfBaseVal, wfSubVal, hft] at hob
    · by_cases hs : s = ""
      · subst hs
        simp [effectiveBaseline, specEffectiveBaseline, specUnset, pyTruthy, pyIsNA,
          defaultFor, hft]
      · simp [effectiveBaseline, specEffectiveBaseline, specUnset, pyTruthy, pyIsNA, hft, hs]
    · simp [effectiveBaseline, specEffectiveBaseline, specUnset, pyTruthy, pyIsNA,
        defaultFor, hft]
  | slider =>
    have hmin : (0 : Int) < props.minVal := by simpa [wfProps, hft] using hp
    rcases ob with n | s | _
    · have hn : ¬ (n = 0) := by
        simp [wfBaseVal, wfSubVal, hft] at hob
        omega
      simp [effectiveBaseline, specEffectiveBaseline, specUnset, pyTruthy, pyIsNA,
        pyToInt, hft, hn]
    · have hs : s = "" := by simp [wfBaseVal, wfSubVal, hft] at hob; exact hob
      subst hs
      have hm : ¬ (props.minVal = 0) := by omega
      simp [effectiveBaseline, specEffectiveBaseline, specUnset, pyTruthy, pyIsNA,
        defaultFor, pyToInt, hft, hm]
    · have hm : ¬ (props.minVal = 0) := by omega
      simp [effectiveBaseline, specEffectiveBaseline, specUnset, pyTruthy, pyIsNA,
        defaultFor, pyToInt, hft, hm]

theorem isChanged_eq_spec (props : FieldProps) (hp : wfProps props = true) (ob nv : Value)
    (hob : wfBaseVal props ob = true) (hnv : wfSubVal props nv = true) :
    isChanged props ob nv = specChanged props ob nv := by
  rw [isChanged, specChanged, effBaseline_eq_spec props hp ob hob,
    wfSubVal_not_na props nv hnv, wfSubVal_not_unset props hp nv hnv]

theorem isChanged_self (props : FieldProps) (hp : wfProps props = true) (v : Value)
    (h : wfSubVal props v = true) : isChanged props v v = false := by
  rw [isChanged_eq_spec props hp v v (wfSubVal_wfBaseVal props v h) h]
  have hu := wfSubVal_not_unset props hp v h
  have hq : pyEq v v = true := by
    cases v
    · simp [pyEq]
    · simp [pyEq]
    · simp [specUnset] at hu
  simp [specChanged, specEffectiveBaseline, hu, hq]

theorem categories_wfProps : categories.all (fun cp => wfProps cp.2) = true := by decide


/- Concrete fixtures used by witnesses and counterexamples. -/

/-- An all-defaults form submission. -/
def ndDefault : Dict :=
  [("Meditation", .intV 0), ("Exercise", .intV 0), ("Frankie", .intV 0),
   ("Harrison", .intV 0), ("Madi", .intV 0), ("THC", .strV "bad"),
   ("Diet", .strV "bad"), ("Screen", .intV 0), ("Productive", .intV 0),
   ("Vibe", .intV 1)]

/-- A stored row for 2024-01-01 with Exercise 30 and Vibe 5, the rest default. -/
def exRow : Dict :=
  [("Date", .strV "2024-01-01"), ("Meditation", .intV 0), ("Exercise", .intV 30),
   ("Frankie", .intV 0), ("Harrison", .intV 0), ("Madi", .intV 0),
   ("THC", .strV "bad"), ("Diet", .strV "bad"), ("Screen", .intV 0),
   ("Productive", .intV 0), ("Vibe", .intV 5)]

/-- A resubmission of exRow changing Exercise to 45 and keeping Vibe 5. -/
def exSub : Dict :=
  [("Meditation", .intV 0), ("Exercise", .intV 45), ("Frankie", .intV 0),
   ("Harrison", .intV 0), ("Madi", .intV 0), ("THC", .strV "bad"),
   ("Diet", .strV "bad"), ("Screen", .intV 0), ("Productive", .intV 0),
   ("Vibe", .intV 5)]

def exTable : Table := { cols := schemaCols, rows := [exRow] }

def fsEmpty : FS := { tracker := none, cache := none }

def ssEmpty : SessionState := ⟨[], [], []⟩

def emptyTable : Table := { cols := schemaCols, rows := [] }

/-- C1: for a submission against an existing record, the code of lines
    457-483 classifies a field as changed iff the submitted value differs
    from the effective baseline (the remembered baseline with unset
    entries replaced by the canonical default, compared as typed values)
    and the submitted value is not itself unset/NaN. -/
theorem c1_changed_classification (original nd : Dict)
    (hob : categories.all (fun cp => wfBaseVal cp.2 (recGet original cp.1)) = true)
    (hnd : wfSubmission nd = true) :
    changedFields original nd =
      (categories.filter (fun cp =>
        specChanged cp.2 (recGet original cp.1) (recGet nd cp.1))).map (fun cp => cp.1) := by
  rw [changedFields]
  congr 1
  apply List.filter_congr
  intro cp hcp
  rw [List.all_eq_true] at hob
  have hnv : wfSubVal cp.2 (recGet nd cp.1) = true := by
    rw [wfSubmission, Bool.and_eq_true, List.all_eq_true] at hnd
    exact hnd.2 cp hcp
  have hpw : wfProps cp.2 = true := by
    have hall := categories_wfProps
    rw [List.all_eq_true] at hall
    exact hall cp hcp
  exact isChanged_eq_spec cp.2 hpw (recGet original cp.1) (recGet nd cp.1) (hob cp hcp) hnv

theorem c1_witness :
    changedFields exRow exSub =
      (categories.filter (fun cp =>
        specChanged cp.2 (recGet exRow cp.1) (recGet exSub cp.1))).map (fun cp => cp.1) :=
  c1_changed_classification exRow exSub (by decide) (by decide)

/-- C2 counterexample: `save_data` writes directly over Tracker.csv with
    no temporary file, so a write that fails after zero lines leaves the
    previously persisted content destroyed, not "entirely unmodified". -/
theorem c2_counterexample :
    (save_data { tracker := some (renderCSV exTable), cache := none } emptyTable (some 0)).2
        = false ∧
    (save_data { tracker := some (renderCSV exTable), cache := none } emptyTable (some 0)).1.tracker
        ≠ some (renderCSV exTable) := by
  decide

/-- C2 amended: when the write fails, `save_data` does surface the error
    (returns false) and skips the cache invalidation, but the backing file
    is left holding whatever prefix of the new content was written before
    the failure — the write is in-place, not all-or-nothing.  On success
    the whole table is written and the cache is invalidated. -/
theorem c2_amended (fs : FS) (df : Table) (k : Nat) :
    (save_data fs df (some k)).2 = false ∧
    (save_data fs df (some k)).1.cache = fs.cache ∧
    (save_data fs df (some k)).1.tracker = some ((renderCSV df).take k) ∧
    (save_data fs df none).2 = true ∧
    (save_data fs df none).1.tracker = some (renderCSV df) ∧
    (save_data fs df none).1.cache = none :=
  ⟨rfl, rfl, rfl, rfl, rfl, rfl⟩

/-- The row appended by the creation branch is the row `get_data_for_date`
    finds afterwards, since no earlier row matches the date. -/
theorem get_data_append_new (df : Table) (date : String) (row : Dict)
    (hnot : data_exists_for_date df date = false)
    (hrow : pyEq (recGet row "Date") (.strV date) = true) :
    get_data_for_date { cols := df.cols, rows := df.rows ++ [row] } date = row := by
  have hnone : df.rows.find? (fun r => pyEq (recGet r "Date") (.strV date)) = none := by
    rw [List.find?_eq_none]
    rw [data_exists_for_date, List.any_eq_false] at hnot
    exact hnot
  rw [get_data_for_date]
  simp only [List.find?_append, hnone, Option.none_or, List.find?, hrow]

/-- C3 counterexample: a submission whose persist fails (fault after zero
    lines) still replaces the session baseline for the date with the
    freshly mutated in-memory values; the claim says a failed persist must
    not replace the baseline (it should still be the pre-edit exRow). -/
theorem c3_counterexample :
    (submit fsEmpty ssEmpty exTable "2024-01-01" exSub (some 0)).saveAttempted = true ∧
    (submit fsEmpty ssEmpty exTable "2024-01-01" exSub (some 0)).saveOk = false ∧
    getA (submit fsEmpty ssEmpty exTable "2024-01-01" exSub (some 0)).ss.originalValues
        "2024-01-01" ≠ some exRow ∧
    getA (submit fsEmpty ssEmpty exTable "2024-01-01" exSub (some 0)).ss.originalValues
        "2024-01-01" =
      some (get_data_for_date
        (submit fsEmpty ssEmpty exTable "2024-01-01" exSub (some 0)).df "2024-01-01") := by
  decide

/-- C3 amended: the handler replaces the session baseline for the date
    exactly once per write attempt (creation or field update), with the
    in-memory table's row for that date, regardless of whether the persist
    succeeded; only a no-change submission leaves the baseline alone. -/
theorem c3_amended (fs : FS) (ss : SessionState) (df : Table) (date : String)
    (nd : Dict) (fault : Option Nat)
    (h : (submit fs ss df date nd fault).saveAttempted = true) :
    getA (submit fs ss df date nd fault).ss.originalValues date =
      some (get_data_for_date (submit fs ss df date nd fault).df date) := by
  rw [submit] at h ⊢
  by_cases hd : data_exists_for_date df date
  · simp only [hd, if_true] at h ⊢
    by_cases hc : (changedFields (baselineFor ss df date) nd).isEmpty
    · simp only [hc, if_true] at h
      exact absurd h Bool.false_ne_true
    · simp only [hc, if_false] at h ⊢
      exact getA_setA_self _ _ _
  · simp only [hd, Bool.false_eq_true, if_false] at h ⊢
    rw [getA_setA_self]
    rw [get_data_append_new df date _ (by simpa using hd)]
    simp [recGet, getA, pyEq]

theorem c3_witness :
    getA (submit fsEmpty ssEmpty exTable "2024-01-01" exSub (some 0)).ss.originalValues
        "2024-01-01" =
      some (get_data_for_date
        (submit fsEmpty ssEmpty exTable "2024-01-01" exSub (some 0)).df "2024-01-01") :=
  c3_amended fsEmpty ssEmpty exTable "2024-01-01" exSub (some 0) (by decide)

/- Lemmas about the update loop of the submit handler. -/

theorem any_map_pres (rows : List Dict) (p : Dict → Bool) (g : Dict → Dict)
    (h : ∀ r, p (g r) = p r) : (rows.map g).any p = rows.any p := by
  induction rows with
  | nil => rfl
  | cons r rest ih => simp [List.any_cons, h, ih]

theorem find?_map_pres (rows : List Dict) (p : Dict → Bool) (g : Dict → Dict)
    (h : ∀ r, p (g r) = p r) :
    (rows.map g).find? p = (rows.find? p).map g := by
  induction rows with
  | nil => rfl
  | cons r rest ih =>
    by_cases hp : p r = true
    · rw [List.map_cons, List.find?_cons_of_pos _ (by rw [h]; exact hp),
        List.find?_cons_of_pos _ hp]
      rfl
    · rw [List.map_cons, List.find?_cons_of_neg _ (by rw [h]; exact hp),
        List.find?_cons_of_neg _ hp, ih]

theorem updateField_pres_date (date c : String) (v : Value) (hc : c ≠ "Date") (r : Dict) :
    pyEq (recGet (if pyEq (recGet r "Date") (.strV date) then recSet r c v else r) "Date")
        (.strV d) = pyEq (recGet r "Date") (.strV d) := by
  by_cases h : pyEq (recGet r "Date") (.strV date) = true
  · rw [if_pos h, recGet_recSet_ne _ _ _ _ (Ne.symm hc)]
  · rw [if_neg h]

theorem data_exists_updateField (df : Table) (date c : String) (v : Value) (d : String)
    (hc : c ≠ "Date") :
    data_exists_for_date (updateField df date c v) d = data_exists_for_date df d := by
  rw [data_exists_for_date, data_exists_for_date, updateField]
  exact any_map_pres _ _ _ (updateField_pres_date date c v hc)

theorem get_data_updateField (df : Table) (date c : String) (v : Value) (hc : c ≠ "Date")
    (hd : data_exists_for_date df date = true) :
    get_data_for_date (updateField df date c v) date =
      recSet (get_data_for_date df date) c v := by
  have hsome : (df.rows.find? (fun r => pyEq (recGet r "Date") (.strV date))).isSome := by
    rw [List.find?_isSome]
    rw [data_exists_for_date, List.any_eq_true] at hd
    exact hd
  obtain ⟨r, hr⟩ := Option.isSome_iff_exists.1 hsome
  rw [get_data_for_date, updateField]
  dsimp only
  rw [find?_map_pres _ _ _ (updateField_pres_date date c v hc), hr]
  have hpr := List.find?_some hr
  simp only at hpr
  rw [get_data_for_date, hr]
  simp [hpr]

/-- The record-level image of the update loop. -/
def setMany (r : Dict) (cs : List String) (nd : Dict) : Dict :=
  cs.foldl (fun a c => recSet a c (recGet nd c)) r

theorem data_exists_applyUpdates (df : Table) (date : String) (cs : List String) (nd : Dict)
    (d : String) (hcs : ∀ c ∈ cs, c ≠ "Date") :
    data_exists_for_date (applyUpdates df date cs nd) d = data_exists_for_date df d := by
  induction cs generalizing df with
  | nil => rfl
  | cons a cs ih =>
    rw [applyUpdates, List.foldl_cons]
    have ha : a ≠ "Date" := hcs a (List.mem_cons_self a cs)
    rw [show List.foldl (fun d c => updateField d date c (recGet nd c)) (updateField df date a (recGet nd a)) cs = applyUpdates (updateField df date a (recGet nd a)) date cs nd from rfl]
    rw [ih _ (fun c hcc => hcs c (List.mem_cons_of_mem a hcc)),
      data_exists_updateField _ _ _ _ _ ha]

theorem get_data_applyUpdates (df : Table) (date : String) (cs : List String) (nd : Dict)
    (hcs : ∀ c ∈ cs, c ≠ "Date") (hd : data_exists_for_date df date = true) :
    get_data_for_date (applyUpdates df date cs nd) date =
      setMany (get_data_for_date df date) cs nd := by
  induction cs generalizing df with
  | nil => rfl
  | cons a cs ih =>
    rw [applyUpdates, List.foldl_cons]
    have ha : a ≠ "Date" := hcs a (List.mem_cons_self a cs)
    rw [show List.foldl (fun d c => updateField d date c (recGet nd c)) (updateField df date a (recGet nd a)) cs = applyUpdates (updateField df date a (recGet nd a)) date cs nd from rfl]
    rw [ih _ (fun c hcc => hcs c (List.mem_cons_of_mem a hcc))
        (by rw [data_exists_updateField _ _ _ _ _ ha]; exact hd),
      get_data_updateField _ _ _ _ ha hd]
    rfl

theorem recGet_setMany (r : Dict) (cs : List String) (nd : Dict) (c : String) :
    recGet (setMany r cs nd) c = if c ∈ cs then recGet nd c else recGet r c := by
  induction cs generalizing r with
  | nil => simp [setMany]
  | cons a cs ih =>
    rw [setMany, List.foldl_cons,
      show List.foldl (fun a c => recSet a c (recGet nd c)) (recSet r a (recGet nd a)) cs = setMany (recSet r a (recGet nd a)) cs nd from rfl,
      ih]
    by_cases hc : c ∈ cs
    · simp [hc, List.mem_cons]
    · by_cases hca : c = a
      · subst hca
        simp [hc, recGet_recSet_self]
      · simp [hc, hca, recGet_recSet_ne _ _ _ _ hca]

theorem changedFields_ne_date (orig nd : Dict) :
    ∀ c ∈ changedFields orig nd, c ≠ "Date" := by
  intro c hc
  simp only [changedFields, List.mem_map, List.mem_filter] at hc
  obtain ⟨cp, ⟨hcp, _⟩, he⟩ := hc
  have hall : categories.all (fun cp => cp.1 != "Date") = true := by decide
  rw [List.all_eq_true] at hall
  have := hall cp hcp
  rw [← he]
  simpa using this

theorem categories_keys_inj (cp cq : String × FieldProps)
    (hp : cp ∈ categories) (hq : cq ∈ categories) (h : cp.1 = cq.1) : cp = cq := by
  have hnd : (categories.map (fun cp => cp.1)).Nodup := by decide
  exact List.inj_on_of_nodup_map hnd hp hq h

/-- A category name is in `changed_fields` iff its diff test fired. -/
theorem mem_changedFields (orig nd : Dict) (cp : String × FieldProps)
    (hcp : cp ∈ categories) :
    cp.1 ∈ changedFields orig nd ↔
      isChanged cp.2 (recGet orig cp.1) (recGet nd cp.1) = true := by
  constructor
  · intro h
    simp only [changedFields, List.mem_map, List.mem_filter] at h
    obtain ⟨cq, ⟨hcq, hch⟩, he⟩ := h
    have : cq = cp := categories_keys_inj cq cp hcq hcp he
    rw [← this]
    exact hch
  · intro h
    simp only [changedFields, List.mem_map, List.mem_filter]
    exact ⟨cp, ⟨hcp, h⟩, rfl⟩

/-- C5: on an update, only the changed fields are written; the stored row
    afterwards carries the submitted value on each changed field and the
    previously persisted value on every other column. -/
theorem c5_partial_update_frame (fs : FS) (ss : SessionState) (df : Table) (date : String)
    (nd : Dict) (fault : Option Nat)
    (hd : data_exists_for_date df date = true)
    (hch : (changedFields (baselineFor ss df date) nd).isEmpty = false) :
    (submit fs ss df date nd fault).outcome =
        .updated (changedFields (baselineFor ss df date) nd) ∧
    (∀ c, c ∉ changedFields (baselineFor ss df date) nd →
      recGet (get_data_for_date (submit fs ss df date nd fault).df date) c =
        recGet (get_data_for_date df date) c) ∧
    (∀ c, c ∈ changedFields (baselineFor ss df date) nd →
      recGet (get_data_for_date (submit fs ss df date nd fault).df date) c =
        recGet nd c) := by
  rw [submit]
  simp only [hd, if_true, hch, Bool.false_eq_true, if_false]
  refine ⟨trivial, ?_, ?_⟩
  · intro c hc
    rw [get_data_applyUpdates df date _ nd (changedFields_ne_date _ _) hd,
      recGet_setMany, if_neg hc]
  · intro c hc
    rw [get_data_applyUpdates df date _ nd (changedFields_ne_date _ _) hd,
      recGet_setMany, if_pos hc]

theorem c5_witness :
    (submit fsEmpty ssEmpty exTable "2024-01-01" exSub none).outcome =
        .updated ["Exercise"] ∧
    recGet (get_data_for_date (submit fsEmpty ssEmpty exTable "2024-01-01" exSub none).df
        "2024-01-01") "Vibe" = .intV 5 := by
  have h := c5_partial_update_frame fsEmpty ssEmpty exTable "2024-01-01" exSub none
    (by decide) (by decide)
  have hch : changedFields (baselineFor ssEmpty exTable "2024-01-01") exSub = ["Exercise"] := by
    decide
  constructor
  · rw [h.1, hch]
  · rw [h.2.1 "Vibe" (by rw [hch]; decide)]
    decide

/-- C6: when the diff finds no changed fields, the handler writes nothing:
    the backing file and the read cache are untouched, the in-memory table
    is unchanged, no save is attempted, and the caller gets the distinct
    noChange outcome. -/
theorem c6_no_change_no_write (fs : FS) (ss : SessionState) (df : Table) (date : String)
    (nd : Dict) (fault : Option Nat)
    (hd : data_exists_for_date df date = true)
    (hch : (changedFields (baselineFor ss df date) nd).isEmpty = true) :
    (submit fs ss df date nd fault).outcome = .noChange ∧
    (submit fs ss df date nd fault).fs = fs ∧
    (submit fs ss df date nd fault).df = df ∧
    (submit fs ss df date nd fault).saveAttempted = false ∧
    (∀ l, Outcome.noChange ≠ Outcome.updated l) ∧
    Outcome.noChange ≠ Outcome.created := by
  rw [submit]
  simp only [hd, if_true, hch]
  exact ⟨trivial, trivial, trivial, trivial, fun l => by simp, by simp⟩

/-- A resubmission of exactly the values already stored in exRow. -/
def exSame : Dict :=
  [("Meditation", .intV 0), ("Exercise", .intV 30), ("Frankie", .intV 0),
   ("Harrison", .intV 0), ("Madi", .intV 0), ("THC", .strV "bad"),
   ("Diet", .strV "bad"), ("Screen", .intV 0), ("Productive", .intV 0),
   ("Vibe", .intV 5)]

theorem c6_witness :
    (submit fsEmpty ssEmpty exTable "2024-01-01" exSame none).outcome = .noChange ∧
    (submit fsEmpty ssEmpty exTable "2024-01-01" exSame none).fs = fsEmpty :=
  have h := c6_no_change_no_write fsEmpty ssEmpty exTable "2024-01-01" exSame none
    (by decide) (by decide)
  ⟨h.1, h.2.1⟩

/- Claim C8: Scale boundaries and (absence of) validation. -/

/-- A resubmission equal to exRow except Vibe pushed to 11, outside the
    slider's [1,10] domain. -/
def exSub11 : Dict :=
  [("Meditation", .intV 0), ("Exercise", .intV 30), ("Frankie", .intV 0),
   ("Harrison", .intV 0), ("Madi", .intV 0), ("THC", .strV "bad"),
   ("Diet", .strV "bad"), ("Screen", .intV 0), ("Productive", .intV 0),
   ("Vibe", .intV 11)]

/-- C8 counterexample: a Vibe of 11, outside [1,10], is not rejected: the
    handler classifies it as changed, writes it into the stored row, and
    attempts the save — there is no ValidationError and no check before
    the write. -/
theorem c8_counterexample :
    (submit fsEmpty ssEmpty exTable "2024-01-01" exSub11 none).saveAttempted = true ∧
    (submit fsEmpty ssEmpty exTable "2024-01-01" exSub11 none).outcome = .updated ["Vibe"] ∧
    recGet (get_data_for_date
        (submit fsEmpty ssEmpty exTable "2024-01-01" exSub11 none).df "2024-01-01") "Vibe"
      = .intV 11 := by
  decide

/-- C8 amended: the submit handler performs no domain validation on Scale
    values: any submitted Vibe integer n — at the boundary or outside the
    domain alike — that differs from the effective baseline is classified
    changed, written into the row, and persisted.  (Out-of-range values are
    kept out only by the slider widget itself, min 1 / max 10, line 402.) -/
theorem c8_amended (fs : FS) (ss : SessionState) (df : Table) (date : String)
    (nd : Dict) (fault : Option Nat) (n : Int)
    (hd : data_exists_for_date df date = true)
    (hv : recGet nd "Vibe" = .intV n)
    (hch : isChanged vibeProps (recGet (baselineFor ss df date) "Vibe") (.intV n) = true) :
    "Vibe" ∈ changedFields (baselineFor ss df date) nd ∧
    (submit fs ss df date nd fault).saveAttempted = true ∧
    recGet (get_data_for_date (submit fs ss df date nd fault).df date) "Vibe" = .intV n := by
  have hmem : "Vibe" ∈ changedFields (baselineFor ss df date) nd := by
    have h := (mem_changedFields (baselineFor ss df date) nd ("Vibe", vibeProps)
      (by decide)).2
    apply h
    rw [hv]
    exact hch
  have hne : changedFields (baselineFor ss df date) nd ≠ [] := List.ne_nil_of_mem hmem
  have hie : (changedFields (baselineFor ss df date) nd).isEmpty = false := by
    cases he : changedFields (baselineFor ss df date) nd with
    | nil => exact absurd he hne
    | cons a l => rfl
  refine ⟨hmem, ?_, ?_⟩
  · rw [submit]
    simp only [hd, if_true, hie, Bool.false_eq_true, if_false]
  · rw [submit]
    simp only [hd, if_true, hie, Bool.false_eq_true, if_false]
    rw [get_data_applyUpdates df date _ nd (changedFields_ne_date _ _) hd,
      recGet_setMany, if_pos hmem, hv]

/-- Boundary witness for C8: Vibe submitted at exactly max (10, via
    exSubMax) and at exactly min (1, via ndDefault) are both accepted and
    written. -/
def exSubMax : Dict :=
  [("Meditation", .intV 0), ("Exercise", .intV 30), ("Frankie", .intV 0),
   ("Harrison", .intV 0), ("Madi", .intV 0), ("THC", .strV "bad"),
   ("Diet", .strV "bad"), ("Screen", .intV 0), ("Productive", .intV 0),
   ("Vibe", .intV 10)]

theorem c8_witness :
    recGet (get_data_for_date
        (submit fsEmpty ssEmpty exTable "2024-01-01" exSubMax none).df "2024-01-01") "Vibe"
      = .intV 10 ∧
    recGet (get_data_for_date
        (submit fsEmpty ssEmpty exTable "2024-01-01" ndDefault none).df "2024-01-01") "Vibe"
      = .intV 1 :=
  ⟨(c8_amended fsEmpty ssEmpty exTable "2024-01-01" exSubMax none 10 (by decide) (by decide)
      (by decide)).2.2,
   (c8_amended fsEmpty ssEmpty exTable "2024-01-01" ndDefault none 1 (by decide) (by decide)
      (by decide)).2.2⟩

/- Claim C9: absent dates read as unset and create on submit. -/

theorem recGet_constMap (cols : List String) (c : String) :
    recGet (cols.map (fun c => (c, Value.strV ""))) c = .strV "" := by
  induction cols with
  | nil => rfl
  | cons a cols ih =>
    by_cases h : a = c
    · simp [recGet, getA, h]
    · simpa [recGet, getA, h] using ih

theorem markSubmitted_self (sf : List (String × List String)) (date f : String) :
    ((getA (markSubmitted sf date f) date).getD []).contains f = true := by
  rw [markSubmitted]
  cases h : getA sf date with
  | none => simp [getA_setA_self]
  | some l =>
    dsimp only
    by_cases hf : l.contains f = true
    · rw [if_pos hf, h]
      simpa using hf
    · rw [if_neg hf, getA_setA_self]
      simp

theorem markSubmitted_mono (sf : List (String × List String)) (date f x : String)
    (h : ((getA sf date).getD []).contains x = true) :
    ((getA (markSubmitted sf date f) date).getD []).contains x = true := by
  rw [markSubmitted]
  cases hg : getA sf date with
  | none => simp [hg] at h
  | some l =>
    dsimp only
    rw [hg] at h
    simp only [Option.getD_some] at h
    by_cases hf : l.contains f = true
    · rw [if_pos hf, hg]
      simpa using h
    · rw [if_neg hf, getA_setA_self]
      simp only [Option.getD_some]
      simp at h ⊢
      exact Or.inl h

theorem foldl_mark_mono (L : List (String × FieldProps))
    (sf : List (String × List String)) (date x : String)
    (h : ((getA sf date).getD []).contains x = true) :
    ((getA (L.foldl (fun s cp => markSubmitted s date cp.1) sf) date).getD []).contains x
      = true := by
  induction L generalizing sf with
  | nil => exact h
  | cons a L ih =>
    rw [List.foldl_cons]
    exact ih _ (markSubmitted_mono sf date a.1 x h)

theorem foldl_mark_all (L : List (String × FieldProps))
    (sf : List (String × List String)) (date : String) :
    ∀ cp ∈ L,
      ((getA (L.foldl (fun s cp => markSubmitted s date cp.1) sf) date).getD []).contains cp.1
        = true := by
  induction L generalizing sf with
  | nil => intro cp hcp; exact absurd hcp (List.not_mem_nil cp)
  | cons a L ih =>
    intro cp hcp
    rw [List.foldl_cons]
    rcases List.mem_cons.1 hcp with h | h
    · subst h
      exact foldl_mark_mono L _ date cp.1 (markSubmitted_self sf date cp.1)
    · exact ih _ cp h

/-- C9: for a date with no row in the table, the accessor reports absence
    and an all-unset record; submitting any form for that date takes the
    creation branch: Created outcome, the submission appended verbatim as
    the new row (no per-field diffing), a save attempt, and every category
    marked submitted (the code's "every field changed" reporting). -/
theorem c9_absent_date_created (fs : FS) (ss : SessionState) (df : Table) (date : String)
    (nd : Dict) (fault : Option Nat)
    (hnot : df.rows.all (fun r => !pyEq (recGet r "Date") (.strV date)) = true) :
    data_exists_for_date df date = false ∧
    get_data_for_date df date = df.cols.map (fun c => (c, Value.strV "")) ∧
    (∀ c : String, specUnset (recGet (get_data_for_date df date) c) = true) ∧
    (submit fs ss df date nd fault).outcome = .created ∧
    get_data_for_date (submit fs ss df date nd fault).df date = ("Date", .strV date) :: nd ∧
    (submit fs ss df date nd fault).saveAttempted = true ∧
    categories.all (fun cp =>
      ((getA (submit fs ss df date nd fault).ss.submittedFields date).getD []).contains cp.1)
      = true := by
  rw [List.all_eq_true] at hnot
  have hfalse : data_exists_for_date df date = false := by
    rw [data_exists_for_date, List.any_eq_false]
    intro r hr
    have := hnot r hr
    simp at this
    simp [this]
  have hget : get_data_for_date df date = df.cols.map (fun c => (c, Value.strV "")) := by
    rw [get_data_for_date]
    have hnone : df.rows.find? (fun r => pyEq (recGet r "Date") (.strV date)) = none := by
      rw [List.find?_eq_none]
      intro r hr
      have := hnot r hr
      simp at this
      simp [this]
    rw [hnone]
  have hrowdate : pyEq (recGet (("Date", Value.strV date) :: nd) "Date") (.strV date) = true := by
    simp [recGet, getA, pyEq]
  refine ⟨hfalse, hget, ?_, ?_, ?_, ?_, ?_⟩
  · intro c
    rw [hget, recGet_constMap]
    rfl
  · rw [submit]
    simp only [hfalse, Bool.false_eq_true, if_false]
  · rw [submit]
    simp only [hfalse, Bool.false_eq_true, if_false]
    exact get_data_append_new df date _ hfalse hrowdate
  · rw [submit]
    simp only [hfalse, Bool.false_eq_true, if_false]
  · rw [submit]
    simp only [hfalse, Bool.false_eq_true, if_false]
    rw [List.all_eq_true]
    intro cp hcp
    exact foldl_mark_all categories _ date cp hcp

theorem c9_witness :
    (submit fsEmpty ssEmpty emptyTable "2024-01-01" ndDefault none).outcome = .created ∧
    get_data_for_date (submit fsEmpty ssEmpty emptyTable "2024-01-01" ndDefault none).df
        "2024-01-01" = ("Date", .strV "2024-01-01") :: ndDefault :=
  have h := c9_absent_date_created fsEmpty ssEmpty emptyTable "2024-01-01" ndDefault none
    (by decide)
  ⟨h.2.2.2.1, h.2.2.2.2.1⟩

/- Claim C10: at most one row per date. -/

/-- Number of rows holding the given date. -/
def countDate (df : Table) (d : String) : Nat :=
  df.rows.countP (fun r => pyEq (recGet r "Date") (.strV d))

theorem countP_map_pres (rows : List Dict) (p : Dict → Bool) (g : Dict → Dict)
    (h : ∀ r, p (g r) = p r) : (rows.map g).countP p = rows.countP p := by
  induction rows with
  | nil => rfl
  | cons r rest ih => simp [List.countP_cons, h, ih]

theorem countDate_updateField (df : Table) (date c : String) (v : Value) (d : String)
    (hc : c ≠ "Date") :
    countDate (updateField df date c v) d = countDate df d := by
  rw [countDate, countDate, updateField]
  exact countP_map_pres _ _ _ (updateField_pres_date date c v hc)

theorem countDate_applyUpdates (df : Table) (date : String) (cs : List String) (nd : Dict)
    (d : String) (hcs : ∀ c ∈ cs, c ≠ "Date") :
    countDate (applyUpdates df date cs nd) d = countDate df d := by
  induction cs generalizing df with
  | nil => rfl
  | cons a cs ih =>
    rw [applyUpdates, List.foldl_cons]
    have ha : a ≠ "Date" := hcs a (List.mem_cons_self a cs)
    rw [show List.foldl (fun d c => updateField d date c (recGet nd c)) (updateField df date a (recGet nd a)) cs = applyUpdates (updateField df date a (recGet nd a)) date cs nd from rfl]
    rw [ih _ (fun c hcc => hcs c (List.mem_cons_of_mem a hcc)),
      countDate_updateField _ _ _ _ _ ha]

/-- C10: every submission preserves "at most one row per date": updates
    rewrite rows in place, and a new row is appended only when no row for
    that date exists. -/
theorem c10_unique_date_invariant (fs : FS) (ss : SessionState) (df : Table) (date : String)
    (nd : Dict) (fault : Option Nat) (d : String)
    (hinv : countDate df d ≤ 1) :
    countDate (submit fs ss df date nd fault).df d ≤ 1 := by
  rw [submit]
  by_cases hd : data_exists_for_date df date = true
  · simp only [hd, if_true]
    by_cases hc : (changedFields (baselineFor ss df date) nd).isEmpty = true
    · simp only [hc, if_true]
      exact hinv
    · rw [Bool.not_eq_true] at hc
      simp only [hc, Bool.false_eq_true, if_false]
      rw [countDate_applyUpdates df date _ nd d (changedFields_ne_date _ _)]
      exact hinv
  · have hd2 : data_exists_for_date df date = false := by
      cases h : data_exists_for_date df date
      · rfl
      · exact absurd h hd
    simp only [hd2, Bool.false_eq_true, if_false]
    rw [countDate, List.countP_append]
    have hnd : recGet (("Date", Value.strV date) :: nd) "Date" = .strV date := by
      simp [recGet, getA]
    by_cases hdd : d = date
    · subst hdd
      have hzero : df.rows.countP (fun r => pyEq (recGet r "Date") (.strV d)) = 0 := by
        rw [List.countP_eq_zero]
        rw [data_exists_for_date, List.any_eq_false] at hd2
        exact hd2
      rw [hzero]
      simp only [List.countP_cons, List.countP_nil, Nat.zero_add]
      by_cases hq : pyEq (recGet (("Date", Value.strV d) :: nd) "Date") (.strV d) = true <;>
        simp [hq]
    · have : pyEq (recGet (("Date", Value.strV date) :: nd) "Date") (.strV d) = false := by
        rw [hnd]
        simp [pyEq]
        exact fun hh => hdd hh.symm
      simp [List.countP_cons, this]
      exact hinv

theorem c10_witness :
    countDate (submit fsEmpty ssEmpty emptyTable "2024-01-01" ndDefault none).df
      "2024-01-01" ≤ 1 :=
  c10_unique_date_invariant fsEmpty ssEmpty emptyTable "2024-01-01" ndDefault none
    "2024-01-01" (by decide)

/- Claim C7: load on a missing or corrupt backing store. -/

/-- A corrupt CSV: a data line with more cells than the header, which
    makes `pd.read_csv` raise. -/
def corruptLines : List (List String) :=
  [schemaCols,
   ["2024-01-01", "1", "2", "3", "4", "5", "bad", "bad", "6", "7", "8", "EXTRA"]]

/-- C7 counterexample: on an unreadable/corrupt backing store, `load_data`
    does not fail with a typed StorageReadError — the except branch of
    lines 111-114 silently returns the very same empty table that a
    missing file produces, so the caller cannot distinguish corruption
    from absence. -/
theorem c7_counterexample :
    parseCSV corruptLines = none ∧
    loadTable (some corruptLines) = loadTable none ∧
    loadTable (some corruptLines) = { cols := schemaCols, rows := [] } := by
  decide

/-- C7 amended: a missing backing store yields the empty table with the
    schema columns and no rows, without error (as claimed); an unreadable
    or corrupt backing store is caught inside load_data itself, which logs
    and returns the same empty table with the schema columns — no typed
    error is surfaced for the caller to handle. -/
theorem c7_amended :
    loadTable none = { cols := schemaCols, rows := [] } ∧
    ∀ lines, parseCSV lines = none →
      loadTable (some lines) = { cols := schemaCols, rows := [] } := by
  constructor
  · rfl
  · intro lines h
    rw [loadTable, h]

theorem c7_witness :
    loadTable (some corruptLines) = { cols := schemaCols, rows := [] } :=
  c7_amended.2 corruptLines (by decide)

/- Infrastructure for claim C4: reloading the table that a successful
   save just persisted preserves date membership. -/

theorem parseRowA_cons (c : String) (cs : List String) (x : String) (xs : List String) :
    parseRowA (c :: cs) (x :: xs) =
      match parseCell c x, parseRowA cs xs with
      | some v, some r => some ((c, v) :: r)
      | _, _ => none := rfl

theorem parseRowA_noDate (cs cells : List String) (h : cells.length = cs.length)
    (hnd : ∀ c ∈ cs, c ≠ "Date") :
    ∃ rec, parseRowA cs cells = some rec := by
  induction cs generalizing cells with
  | nil =>
    cases cells with
    | nil => exact ⟨[], rfl⟩
    | cons x xs => simp at h
  | cons c cs ih =>
    cases cells with
    | nil => simp at h
    | cons x xs =>
      have hc : c ≠ "Date" := hnd c (List.mem_cons_self c cs)
      obtain ⟨rec, hrec⟩ := ih xs (by simpa using h)
        (fun c2 hcc => hnd c2 (List.mem_cons_of_mem c hcc))
      refine ⟨(c, parseValue x) :: rec, ?_⟩
      rw [parseRowA_cons, parseCell, if_neg hc, hrec]

theorem validDate_ne_empty (s : String) (h : validDate s = true) : s ≠ "" := by
  intro he
  subst he
  exact absurd h (by decide)

theorem parseRowA_schemaRow (r : Dict) (s : String)
    (hdate : getA r "Date" = some (.strV s)) (hval : validDate s = true) :
    ∃ rec, parseRowA schemaCols (rowCells schemaCols r) = some rec ∧
      getA rec "Date" = some (.strV s) := by
  have hs : s ≠ "" := validDate_ne_empty s hval
  obtain ⟨rec, hrec⟩ := parseRowA_noDate (categories.map (fun cp => cp.1))
    ((categories.map (fun cp => cp.1)).map (fun c => renderValue (recGet r c)))
    (List.length_map _ _) (by decide)
  refine ⟨("Date", .strV s) :: rec, ?_, ?_⟩
  · have hcells : rowCells schemaCols r =
        s :: (categories.map (fun cp => cp.1)).map (fun c => renderValue (recGet r c)) := by
      rw [rowCells, schemaCols, List.map_cons]
      congr 1
      rw [recGet, hdate]
      rfl
    rw [hcells, show schemaCols = "Date" :: categories.map (fun cp => cp.1) from rfl]
    rw [parseRowA_cons, parseCell, if_pos rfl, if_neg hs, if_pos hval, hrec]
  · simp [getA]

theorem parseRows_rendered (rows : List Dict)
    (h : ∀ r ∈ rows, dateCellValid r = true) :
    ∃ recs, parseRows schemaCols (rows.map (rowCells schemaCols)) = some recs ∧
      ∀ d : String, recs.any (fun r => pyEq (recGet r "Date") (.strV d)) =
        rows.any (fun r => pyEq (recGet r "Date") (.strV d)) := by
  induction rows with
  | nil => exact ⟨[], rfl, fun d => rfl⟩
  | cons r rows ih =>
    obtain ⟨recs, hrecs, hany⟩ := ih (fun x hx => h x (List.mem_cons_of_mem r hx))
    have hd := h r (List.mem_cons_self r rows)
    rw [dateCellValid] at hd
    cases hg : getA r "Date" with
    | none =>
      rw [hg] at hd
      simp at hd
    | some v =>
      cases v with
      | intV n =>
        rw [hg] at hd
        simp at hd
      | nan =>
        rw [hg] at hd
        simp at hd
      | strV s =>
        rw [hg] at hd
        simp only at hd
        obtain ⟨rec, hrec, hrecd⟩ := parseRowA_schemaRow r s hg hd
        refine ⟨rec :: recs, ?_, ?_⟩
        · rw [List.map_cons]
          simp only [parseRows]
          rw [hrec, hrecs]
        · intro d
          simp only [List.any_cons, hany]
          have : recGet rec "Date" = recGet r "Date" := by
            rw [recGet, recGet, hrecd, hg]
          rw [this]

theorem parseCSV_rendered (df : Table) (hcols : df.cols = schemaCols)
    (h : ∀ r ∈ df.rows, dateCellValid r = true) :
    ∃ t, parseCSV (renderCSV df) = some t ∧
      ∀ d, data_exists_for_date t d = data_exists_for_date df d := by
  obtain ⟨recs, hrecs, hany⟩ := parseRows_rendered df.rows h
  refine ⟨{ cols := schemaCols, rows := recs }, ?_, ?_⟩
  · rw [renderCSV, hcols]
    simp only [parseCSV]
    rw [hrecs]
  · intro d
    rw [data_exists_for_date, data_exists_for_date]
    exact hany d

/-- Reading back the file a successful save wrote reports the same dates
    present as the in-memory table that was saved. -/
theorem load_after_save (df : Table) (hcols : df.cols = schemaCols)
    (h : ∀ r ∈ df.rows, dateCellValid r = true) (d : String) :
    data_exists_for_date (loadTable (some (renderCSV df))) d =
      data_exists_for_date df d := by
  obtain ⟨t, ht, hany⟩ := parseCSV_rendered df hcols h
  rw [loadTable, ht]
  exact hany d

theorem cols_applyUpdates (df : Table) (date : String) (cs : List String) (nd : Dict) :
    (applyUpdates df date cs nd).cols = df.cols := by
  induction cs generalizing df with
  | nil => rfl
  | cons a cs ih =>
    rw [applyUpdates, List.foldl_cons,
      show List.foldl (fun d c => updateField d date c (recGet nd c)) (updateField df date a (recGet nd a)) cs = applyUpdates (updateField df date a (recGet nd a)) date cs nd from rfl,
      ih]
    rfl

theorem dateCellValid_recSet (r : Dict) (c : String) (v : Value) (hc : c ≠ "Date") :
    dateCellValid (recSet r c v) = dateCellValid r := by
  rw [dateCellValid, dateCellValid, recSet, getA_setA_ne _ _ _ _ (Ne.symm hc)]

theorem dates_updateField (df : Table) (date c : String) (v : Value) (hc : c ≠ "Date")
    (h : ∀ r ∈ df.rows, dateCellValid r = true) :
    ∀ r ∈ (updateField df date c v).rows, dateCellValid r = true := by
  intro r hr
  rw [updateField] at hr
  simp only [List.mem_map] at hr
  obtain ⟨r0, hr0, he⟩ := hr
  rw [← he]
  by_cases hm : pyEq (recGet r0 "Date") (.strV date) = true
  · rw [if_pos hm, dateCellValid_recSet _ _ _ hc]
    exact h r0 hr0
  · rw [if_neg hm]
    exact h r0 hr0

theorem dates_applyUpdates (df : Table) (date : String) (cs : List String) (nd : Dict)
    (hcs : ∀ c ∈ cs, c ≠ "Date")
    (h : ∀ r ∈ df.rows, dateCellValid r = true) :
    ∀ r ∈ (applyUpdates df date cs nd).rows, dateCellValid r = true := by
  induction cs generalizing df with
  | nil => exact h
  | cons a cs ih =>
    rw [applyUpdates, List.foldl_cons,
      show List.foldl (fun d c => updateField d date c (recGet nd c)) (updateField df date a (recGet nd a)) cs = applyUpdates (updateField df date a (recGet nd a)) date cs nd from rfl]
    exact ih _ (fun c hcc => hcs c (List.mem_cons_of_mem a hcc))
      (dates_updateField df date a (recGet nd a) (hcs a (List.mem_cons_self a cs)) h)

theorem categories_ne_date : ∀ cp ∈ categories, cp.1 ≠ "Date" := by
  intro cp hcp
  have hall : categories.all (fun cp => cp.1 != "Date") = true := by decide
  rw [List.all_eq_true] at hall
  simpa using hall cp hcp

theorem wfSubmission_val (nd : Dict) (h : wfSubmission nd = true) :
    ∀ cp ∈ categories, wfSubVal cp.2 (recGet nd cp.1) = true := by
  rw [wfSubmission, Bool.and_eq_true, List.all_eq_true] at h
  exact fun cp hcp => h.2 cp hcp

/-- A submission that agrees with the baseline on every category diffs to
    the empty changed set. -/
theorem changedFields_agree_nil (base nd : Dict)
    (hb : ∀ cp ∈ categories, recGet base cp.1 = recGet nd cp.1)
    (hnd : wfSubmission nd = true) : changedFields base nd = [] := by
  rw [changedFields]
  have hfil : categories.filter
      (fun cp => isChanged cp.2 (recGet base cp.1) (recGet nd cp.1)) = [] := by
    rw [List.filter_eq_nil_iff]
    intro cp hcp
    have hP : wfProps cp.2 = true := by
      have := List.all_eq_true.1 categories_wfProps cp hcp
      simpa using this
    have hV : wfSubVal cp.2 (recGet nd cp.1) = true := wfSubmission_val nd hnd cp hcp
    rw [hb cp hcp, isChanged_self cp.2 hP _ hV]
    simp
  rw [hfil]
  rfl

/-- Components of a submission that takes the update branch. -/
theorem submit_update_parts (fs : FS) (ss : SessionState) (df : Table) (date : String)
    (nd : Dict) (fault : Option Nat)
    (hd : data_exists_for_date df date = true)
    (hne : (changedFields (baselineFor ss df date) nd).isEmpty = false) :
    (submit fs ss df date nd fault).fs =
      (save_data fs (applyUpdates df date (changedFields (baselineFor ss df date) nd) nd)
        fault).1 ∧
    getA (submit fs ss df date nd fault).ss.originalValues date =
      some (get_data_for_date
        (applyUpdates df date (changedFields (baselineFor ss df date) nd) nd) date) ∧
    (submit fs ss df date nd fault).df =
      applyUpdates df date (changedFields (baselineFor ss df date) nd) nd := by
  rw [submit]
  simp only [hd, if_true, hne, Bool.false_eq_true, if_false]
  exact ⟨trivial, getA_setA_self _ _ _, trivial⟩

/-- Components of a submission that takes the creation branch. -/
theorem submit_create_parts (fs : FS) (ss : SessionState) (df : Table) (date : String)
    (nd : Dict) (fault : Option Nat)
    (hd : data_exists_for_date df date = false) :
    (submit fs ss df date nd fault).fs =
      (save_data fs { cols := df.cols, rows := df.rows ++ [("Date", .strV date) :: nd] }
        fault).1 ∧
    getA (submit fs ss df date nd fault).ss.originalValues date =
      some (("Date", .strV date) :: nd) ∧
    (submit fs ss df date nd fault).df =
      { cols := df.cols, rows := df.rows ++ [("Date", .strV date) :: nd] } := by
  rw [submit]
  simp only [hd, Bool.false_eq_true, if_false]
  exact ⟨trivial, getA_setA_self _ _ _, trivial⟩

/-- C4: submitting the same full set of field values twice in a row for
    the same date, where the first submission persists successfully,
    yields noChange on the second submission: the second diff runs against
    the baseline refreshed by the first write, over the table reloaded
    from the file that write persisted.  The hypothesis hcoh states the
    situation the claim starts from: when a record already exists, the
    session baseline agrees with the stored row on every category (which
    holds whenever the session's earlier persists succeeded). -/
theorem c4_idempotent_resubmit (fs : FS) (ss : SessionState) (df : Table) (date : String)
    (nd : Dict) (fault2 : Option Nat)
    (hcols : df.cols = schemaCols)
    (hdates : ∀ r ∈ df.rows, dateCellValid r = true)
    (hnd : wfSubmission nd = true)
    (hdate : validDate date = true)
    (hcoh : data_exists_for_date df date = true →
      ∀ cp ∈ categories,
        recGet (baselineFor ss df date) cp.1 = recGet (get_data_for_date df date) cp.1)
    (hatt : (submit fs ss df date nd none).saveAttempted = true) :
    (submit (load_data (submit fs ss df date nd none).fs).2
        (submit fs ss df date nd none).ss
        (load_data (submit fs ss df date nd none).fs).1 date nd fault2).outcome
      = .noChange := by
  by_cases hd : data_exists_for_date df date = true
  · have hne : (changedFields (baselineFor ss df date) nd).isEmpty = false := by
      by_cases hie : (changedFields (baselineFor ss df date) nd).isEmpty = true
      · exfalso
        rw [submit] at hatt
        simp only [hd, if_true, hie, if_true] at hatt
        exact absurd hatt Bool.false_ne_true
      · rw [Bool.not_eq_true] at hie
        exact hie
    obtain ⟨h1fs, h1ov, h1df⟩ := submit_update_parts fs ss df date nd none hd hne
    set ch := changedFields (baselineFor ss df date) nd with hch
    set df2 := applyUpdates df date ch nd with hdf2
    have hcols2 : df2.cols = schemaCols := by
      rw [hdf2, cols_applyUpdates]
      exact hcols
    have hdates2 : ∀ r ∈ df2.rows, dateCellValid r = true :=
      dates_applyUpdates df date ch nd (changedFields_ne_date _ _) hdates
    have hload1 : (load_data (submit fs ss df date nd none).fs).1 =
        loadTable (some (renderCSV df2)) := by
      rw [h1fs]
      rfl
    have hex2 : data_exists_for_date (loadTable (some (renderCSV df2))) date = true := by
      rw [load_after_save df2 hcols2 hdates2, hdf2,
        data_exists_applyUpdates df date ch nd date (changedFields_ne_date _ _)]
      exact hd
    have hrow2 : get_data_for_date df2 date = setMany (get_data_for_date df date) ch nd := by
      rw [hdf2]
      exact get_data_applyUpdates df date ch nd (changedFields_ne_date _ _) hd
    have hbase2 : baselineFor (submit fs ss df date nd none).ss
        (loadTable (some (renderCSV df2))) date = get_data_for_date df2 date := by
      rw [baselineFor, h1ov]
      rfl
    have hch2 : changedFields (get_data_for_date df2 date) nd = [] := by
      rw [changedFields]
      have hfil : categories.filter (fun cp =>
          isChanged cp.2 (recGet (get_data_for_date df2 date) cp.1) (recGet nd cp.1))
          = [] := by
        rw [List.filter_eq_nil_iff]
        intro cp hcp
        show ¬ isChanged cp.2 (recGet (get_data_for_date df2 date) cp.1) (recGet nd cp.1)
          = true
        rw [hrow2, recGet_setMany]
        by_cases hm : cp.1 ∈ ch
        · rw [if_pos hm]
          have hP : wfProps cp.2 = true := by
            have := List.all_eq_true.1 categories_wfProps cp hcp
            simpa using this
          rw [isChanged_self cp.2 hP _ (wfSubmission_val nd hnd cp hcp)]
          simp
        · rw [if_neg hm]
          intro hcontra
          apply hm
          rw [hch]
          apply (mem_changedFields (baselineFor ss df date) nd cp hcp).2
          rw [hcoh hd cp hcp]
          exact hcontra
      rw [hfil]
      rfl
    rw [submit, hload1, hex2, hbase2]
    simp [hch2]
  · have hd2 : data_exists_for_date df date = false := by
      rw [← Bool.not_eq_true]
      exact hd
    obtain ⟨h1fs, h1ov, h1df⟩ := submit_create_parts fs ss df date nd none hd2
    set df2 : Table :=
      { cols := df.cols, rows := df.rows ++ [("Date", Value.strV date) :: nd] } with hdf2
    have hcols2 : df2.cols = schemaCols := hcols
    have hdates2 : ∀ r ∈ df2.rows, dateCellValid r = true := by
      intro r hr
      rcases List.mem_append.1 hr with h | h
      · exact hdates r h
      · rw [List.mem_singleton.1 h]
        simp [dateCellValid, getA, hdate]
    have hload1 : (load_data (submit fs ss df date nd none).fs).1 =
        loadTable (some (renderCSV df2)) := by
      rw [h1fs]
      rfl
    have hex2 : data_exists_for_date (loadTable (some (renderCSV df2))) date = true := by
      rw [load_after_save df2 hcols2 hdates2, data_exists_for_date]
      rw [show df2.rows = df.rows ++ [("Date", Value.strV date) :: nd] from rfl,
        List.any_append, Bool.or_eq_true]
      right
      simp [List.any_cons, recGet, getA, pyEq]
    have hbase2 : baselineFor (submit fs ss df date nd none).ss
        (loadTable (some (renderCSV df2))) date = ("Date", Value.strV date) :: nd := by
      rw [baselineFor, h1ov]
      rfl
    have hch2 : changedFields (("Date", Value.strV date) :: nd) nd = [] := by
      apply changedFields_agree_nil _ _ _ hnd
      intro cp hcp
      have hne2 : "Date" ≠ cp.1 := Ne.symm (categories_ne_date cp hcp)
      simp [recGet, getA, hne2]
    rw [submit, hload1, hex2, hbase2]
    simp [hch2]

theorem c4_witness :
    (submit (load_data (submit fsEmpty ssEmpty exTable "2024-01-01" exSub none).fs).2
        (submit fsEmpty ssEmpty exTable "2024-01-01" exSub none).ss
        (load_data (submit fsEmpty ssEmpty exTable "2024-01-01" exSub none).fs).1
        "2024-01-01" exSub none).outcome = .noChange :=
  c4_idempotent_resubmit fsEmpty ssEmpty exTable "2024-01-01" exSub none
    (by decide) (by decide) (by decide) (by decide) (fun _ => by decide) (by decide)
